import Mathlib

/-!
Verification of the sportconnect mobile application's social-graph
consistency protocol and feed-ranking algorithm.

The embedding follows the source:
  src/services/authService.ts          (signUp: user document creation)
  src/services/firestoreService.ts     (createPost)
  src/screens/activity/ActivityScreen.tsx  (handleFollow transaction)
  src/components/posts/PostCard.tsx    (toggleLike transaction, addComment)
  src/screens/home/HomeScreen.tsx      (calculateSportRatingDifference,
                                        generateRecommendations, feed effect)

Firestore documents become Lean structures; the document store becomes a
function from ids to optional records; a Firestore transaction becomes a
pure function from the pre-state to either an error (the transaction threw,
all buffered writes discarded) or the post-state (all writes applied).
JS numbers that take part in arithmetic are modelled as rationals.
-/

namespace SportConnect

/-- A latitude/longitude pair (the fields of the location objects the
ranking code reads). -/
structure Location where
  latitude : ℚ
  longitude : ℚ
deriving DecidableEq

/-- The eight optional per-sport ratings stored under a user's
sportRatings map; a missing key is modelled as none, mirroring a JS
object without that property. -/
structure SportRatings where
  tennis : Option ℚ := none
  basketball : Option ℚ := none
  soccer : Option ℚ := none
  football : Option ℚ := none
  baseball : Option ℚ := none
  golf : Option ℚ := none
  swimming : Option ℚ := none
  running : Option ℚ := none
deriving DecidableEq

/-- The empty sportRatings object written by signUp and by the lazy
user-creation branches. -/
def emptyRatings : SportRatings := {}

/-- A user document, with the fields written by authService.signUp and
mutated by the follow/like transactions. -/
structure UserRec where
  uid : String
  email : String
  displayName : String
  bio : String
  profileImageUrl : String
  followersCount : Nat
  followingCount : Nat
  postsCount : Nat
  followers : List String
  following : List String
  likedPosts : List String
  sportRatings : SportRatings
  location : Option Location
deriving DecidableEq

/-- A post document as created by firestoreService.createPost, plus the
optional denormalized author snapshot fields the ranking code reads
(post.userLocation, post.userSportRatings). -/
structure PostRec where
  text : String
  userId : String
  userDisplayName : String
  userProfileImageUrl : String
  likeCount : Nat
  commentCount : Nat
  likes : List String
  userLocation : Option Location := none
  userSportRatings : Option SportRatings := none
deriving DecidableEq

/-- A comment document as written by PostCard.addComment. -/
structure CommentRec where
  text : String
  userId : String
  userDisplayName : String
  userProfileImageUrl : String
deriving DecidableEq

/-- The authenticated user object (firebase auth): uid is always present,
email and displayName may be null. -/
structure AuthUser where
  uid : String
  email : Option String
  displayName : Option String

/-- The document store: user documents keyed by uid, post documents keyed
by post id, and each post's comments subcollection keyed by post id (a
subcollection exists independently of its parent document, as in
Firestore). -/
structure ServerState where
  users : String → Option UserRec
  posts : String → Option PostRec
  comments : String → List CommentRec

/-- Write (set or overwrite) a user document. -/
def setUser (s : ServerState) (id : String) (u : UserRec) : ServerState :=
  { s with users := fun k => if k = id then some u else s.users k }

/-- Write (set or overwrite) a post document. -/
def setPost (s : ServerState) (id : String) (p : PostRec) : ServerState :=
  { s with posts := fun k => if k = id then some p else s.posts k }

/-- Append a comment document to a post's comments subcollection
(addDoc on the subcollection; works whether or not the parent post
document exists). -/
def pushComment (s : ServerState) (postId : String) (c : CommentRec) : ServerState :=
  { s with comments := fun k => if k = postId then s.comments postId ++ [c] else s.comments k }

/-- The errors thrown inside the two toggle transactions. -/
inductive TxError
  | userNotFound
  | postNotFound
deriving DecidableEq

/-- The body of the handleFollow transaction (ActivityScreen.tsx lines
478 to 531) once the target-exists check has passed: targetUserData is
the document read for userId.  All tx.get reads see the pre-state; the
two writes are applied in order, the second merging into the result of
the first when both touch the same document. -/
def followOkState (s : ServerState) (user : AuthUser) (userId : String)
    (targetUserData : UserRec) : ServerState :=
  let currentUserSnap := s.users user.uid
  let currentFollowing : List String := (currentUserSnap.map UserRec.following).getD []
  let targetFollowers : List String := targetUserData.followers
  let isCurrentlyFollowing := userId ∈ currentFollowing
  let newCurrentFollowing :=
    if isCurrentlyFollowing then currentFollowing.filter (fun id => id ≠ userId)
    else currentFollowing ++ [userId]
  let newTargetFollowers :=
    if isCurrentlyFollowing then targetFollowers.filter (fun id => id ≠ user.uid)
    else targetFollowers ++ [user.uid]
  let s1 :=
    match currentUserSnap with
    | some currentUserData =>
        setUser s user.uid
          { currentUserData with
            following := newCurrentFollowing
            followingCount := newCurrentFollowing.length }
    | none =>
        setUser s user.uid
          { uid := user.uid
            email := user.email.getD ""
            displayName := user.displayName.getD "Unknown User"
            bio := ""
            profileImageUrl := ""
            followersCount := 0
            followingCount := newCurrentFollowing.length
            postsCount := 0
            followers := []
            following := newCurrentFollowing
            likedPosts := []
            sportRatings := emptyRatings
            location := none }
  let targetNow := (s1.users userId).getD targetUserData
  setUser s1 userId
    { targetNow with
      followers := newTargetFollowers
      followersCount := newTargetFollowers.length }

/-- The handleFollow transaction (ToggleFollow): throws when the target
user document does not exist, otherwise toggles the follow edge updating
both sides and both counts. -/
def handleFollow (s : ServerState) (user : AuthUser) (userId : String) :
    Except TxError ServerState :=
  match s.users userId with
  | none => .error .userNotFound
  | some targetUserData => .ok (followOkState s user userId targetUserData)

/-- Firestore runTransaction semantics around handleFollow: on a thrown
error every buffered write is discarded and the store is unchanged. -/
def runFollow (s : ServerState) (user : AuthUser) (userId : String) : ServerState :=
  match handleFollow s user userId with
  | .ok s2 => s2
  | .error _ => s

/-- The body of the toggleLike transaction (PostCard.tsx lines 120 to
165) once the post-exists check has passed. -/
def likeOkState (s : ServerState) (user : AuthUser) (postId : String)
    (postDataFromDb : PostRec) : ServerState :=
  let userSnap := s.users user.uid
  let userLikedPosts : List String := (userSnap.map UserRec.likedPosts).getD []
  let currentLikes : List String := postDataFromDb.likes
  let isCurrentlyLiked := user.uid ∈ currentLikes
  let newLikes :=
    if isCurrentlyLiked then currentLikes.filter (fun id => id ≠ user.uid)
    else currentLikes ++ [user.uid]
  let newUserLikedPosts :=
    if isCurrentlyLiked then userLikedPosts.filter (fun id => id ≠ postId)
    else userLikedPosts ++ [postId]
  let s1 := setPost s postId
    { postDataFromDb with likes := newLikes, likeCount := newLikes.length }
  match userSnap with
  | some userData => setUser s1 user.uid { userData with likedPosts := newUserLikedPosts }
  | none =>
      setUser s1 user.uid
        { uid := user.uid
          email := user.email.getD ""
          displayName := user.displayName.getD "Unknown User"
          bio := ""
          profileImageUrl := ""
          followersCount := 0
          followingCount := 0
          postsCount := 0
          followers := []
          following := []
          likedPosts := newUserLikedPosts
          sportRatings := emptyRatings
          location := none }

/-- The toggleLike transaction (ToggleLike): throws when the post does
not exist, otherwise toggles the actor's membership in the post's likes,
recomputes likeCount from the new likes array, and updates (or lazily
creates) the actor's user document. -/
def toggleLike (s : ServerState) (user : AuthUser) (postId : String) :
    Except TxError ServerState :=
  match s.posts postId with
  | none => .error .postNotFound
  | some postDataFromDb => .ok (likeOkState s user postId postDataFromDb)

/-- runTransaction semantics around toggleLike. -/
def runLike (s : ServerState) (user : AuthUser) (postId : String) : ServerState :=
  match toggleLike s user postId with
  | .ok s2 => s2
  | .error _ => s

/-- JS String.prototype.trim: strip whitespace from both ends
(modelled over the character list so that it evaluates). -/
def strTrim (s : String) : String :=
  String.mk (((s.data.dropWhile Char.isWhitespace).reverse.dropWhile
    Char.isWhitespace).reverse)

/-- PostCard.addComment (lines 178 to 211): an empty trimmed comment is
rejected up front with no write at all; otherwise the comment document is
added to the post's comments subcollection by addDoc, and a separate
transaction then increments commentCount, re-reading it from the store,
only if the post document exists. -/
def addComment (s : ServerState) (user : AuthUser) (postId : String)
    (newComment : String) : ServerState :=
  if strTrim newComment = "" then s
  else
    let s1 := pushComment s postId
      { text := strTrim newComment
        userId := user.uid
        userDisplayName := user.displayName.getD "Anonymous"
        userProfileImageUrl := "" }
    match s1.posts postId with
    | some p => setPost s1 postId { p with commentCount := p.commentCount + 1 }
    | none => s1

/-- The user document written by authService.signUp. -/
def signUpUserDoc (uid email displayName : String) : UserRec :=
  { uid := uid
    email := email
    displayName := displayName
    bio := ""
    profileImageUrl := ""
    followersCount := 0
    followingCount := 0
    postsCount := 0
    followers := []
    following := []
    likedPosts := []
    sportRatings := emptyRatings
    location := none }

/-- The post document written by firestoreService.createPost. -/
def createPostDoc (userId text userDisplayName : String) : PostRec :=
  { text := text
    userId := userId
    userDisplayName := userDisplayName
    userProfileImageUrl := ""
    likeCount := 0
    commentCount := 0
    likes := []
    userLocation := none
    userSportRatings := none }

/-- One mutation of the shared store by any of the operations in the
repository: account registration (fresh auth uid), post creation (fresh
document id from addDoc), a follow toggle, a like toggle, or a comment
append. -/
inductive Step : ServerState → ServerState → Prop
  | signUp (s : ServerState) (uid email displayName : String)
      (hfresh : s.users uid = none) :
      Step s (setUser s uid (signUpUserDoc uid email displayName))
  | createPost (s : ServerState) (postId userId text userDisplayName : String)
      (hfresh : s.posts postId = none) :
      Step s (setPost s postId (createPostDoc userId text userDisplayName))
  | follow (s s2 : ServerState) (user : AuthUser) (userId : String)
      (h : handleFollow s user userId = .ok s2) : Step s s2
  | like (s s2 : ServerState) (user : AuthUser) (postId : String)
      (h : toggleLike s user postId = .ok s2) : Step s s2
  | comment (s : ServerState) (user : AuthUser) (postId text : String) :
      Step s (addComment s user postId text)

/-- The empty store. -/
def initState : ServerState :=
  { users := fun _ => none, posts := fun _ => none, comments := fun _ => [] }

/-- States reachable from the empty store by the repository's operations. -/
inductive Reachable : ServerState → Prop
  | init : Reachable initState
  | step {s s2 : ServerState} : Reachable s → Step s s2 → Reachable s2

/-- The followers array of a user id, the empty array when the document
is absent (the code's userData.followers or-empty convention). -/
def followersOf (s : ServerState) (id : String) : List String :=
  match s.users id with
  | some u => u.followers
  | none => []

/-- The following array of a user id, empty when absent. -/
def followingOf (s : ServerState) (id : String) : List String :=
  match s.users id with
  | some u => u.following
  | none => []

/-- The stored followersCount of a user id, zero when absent. -/
def followersCountOf (s : ServerState) (id : String) : Nat :=
  match s.users id with
  | some u => u.followersCount
  | none => 0

/-- The stored followingCount of a user id, zero when absent. -/
def followingCountOf (s : ServerState) (id : String) : Nat :=
  match s.users id with
  | some u => u.followingCount
  | none => 0

/-- The likes array of a post id, empty when absent. -/
def likesOf (s : ServerState) (id : String) : List String :=
  match s.posts id with
  | some p => p.likes
  | none => []

/-- The stored likeCount of a post id, zero when absent. -/
def likeCountOf (s : ServerState) (id : String) : Nat :=
  match s.posts id with
  | some p => p.likeCount
  | none => 0

/-- Denormalized-counter invariant for users: each follower/following
array is duplicate-free and its stored count is its length. -/
def countInv (s : ServerState) : Prop :=
  ∀ id, (followersOf s id).Nodup ∧ (followingOf s id).Nodup ∧
    followersCountOf s id = (followersOf s id).length ∧
    followingCountOf s id = (followingOf s id).length

/-- Bidirectional edge invariant: A is in the followers of B exactly when
B is in the following of A. -/
def followLinkInv (s : ServerState) : Prop :=
  ∀ a b, a ∈ followersOf s b ↔ b ∈ followingOf s a

/-- Denormalized-counter invariant for posts: the likes array is
duplicate-free and likeCount is its length. -/
def likeInv (s : ServerState) : Prop :=
  ∀ id, (likesOf s id).Nodup ∧ likeCountOf s id = (likesOf s id).length

/-- The combined invariant maintained by every operation. -/
def stateInv (s : ServerState) : Prop :=
  countInv s ∧ followLinkInv s ∧ likeInv s

/-! ### Projections of the store writers -/

@[simp] theorem users_setUser (s : ServerState) (id : String) (u : UserRec) (x : String) :
    (setUser s id u).users x = if x = id then some u else s.users x := rfl

@[simp] theorem posts_setUser (s : ServerState) (id : String) (u : UserRec) :
    (setUser s id u).posts = s.posts := rfl

@[simp] theorem comments_setUser (s : ServerState) (id : String) (u : UserRec) :
    (setUser s id u).comments = s.comments := rfl

@[simp] theorem posts_setPost (s : ServerState) (id : String) (p : PostRec) (x : String) :
    (setPost s id p).posts x = if x = id then some p else s.posts x := rfl

@[simp] theorem users_setPost (s : ServerState) (id : String) (p : PostRec) :
    (setPost s id p).users = s.users := rfl

@[simp] theorem comments_setPost (s : ServerState) (id : String) (p : PostRec) :
    (setPost s id p).comments = s.comments := rfl

@[simp] theorem users_pushComment (s : ServerState) (id : String) (c : CommentRec) :
    (pushComment s id c).users = s.users := rfl

@[simp] theorem posts_pushComment (s : ServerState) (id : String) (c : CommentRec) :
    (pushComment s id c).posts = s.posts := rfl

/-! ### Characterization of the follow transaction -/

/-- The actor's following array after a toggle, as the transaction
computes it from the pre-state. -/
def newFollowingList (s : ServerState) (a t : String) : List String :=
  if t ∈ followingOf s a then (followingOf s a).filter (fun id => id ≠ t)
  else followingOf s a ++ [t]

/-- The target's followers array after a toggle, as the transaction
computes it from the pre-state (the branch is decided by the actor's
following array). -/
def newFollowersList (s : ServerState) (a t : String) : List String :=
  if t ∈ followingOf s a then (followersOf s t).filter (fun id => id ≠ a)
  else followersOf s t ++ [a]

theorem followingOf_followOkState (s : ServerState) (user : AuthUser) (t : String)
    (tu : UserRec) (ht : s.users t = some tu) (x : String) :
    followingOf (followOkState s user t tu) x =
      if x = user.uid then newFollowingList s user.uid t else followingOf s x := by
  cases hcu : s.users user.uid with
  | some cu =>
      by_cases hxt : x = t
      · by_cases hta : t = user.uid
        · subst hxt; subst hta
          simp [followOkState, followingOf, newFollowingList, hcu]
        · subst hxt
          have hxa : ¬ x = user.uid := hta
          simp [followOkState, followingOf, newFollowingList, hcu, ht, hxa, hta]
      · by_cases hxa : x = user.uid
        · subst hxa
          simp [followOkState, followingOf, newFollowingList, hcu, hxt]
        · simp [followOkState, followingOf, hcu, hxt, hxa]
  | none =>
      have hta : ¬ t = user.uid := by
        intro h; rw [h, hcu] at ht; exact Option.noConfusion ht
      by_cases hxt : x = t
      · subst hxt
        have hxa : ¬ x = user.uid := hta
        simp [followOkState, followingOf, newFollowingList, hcu, ht, hxa, hta]
      · by_cases hxa : x = user.uid
        · subst hxa
          simp [followOkState, followingOf, newFollowingList, hcu, hxt]
        · simp [followOkState, followingOf, hcu, hxt, hxa]

theorem followersOf_followOkState (s : ServerState) (user : AuthUser) (t : String)
    (tu : UserRec) (ht : s.users t = some tu) (x : String) :
    followersOf (followOkState s user t tu) x =
      if x = t then newFollowersList s user.uid t else followersOf s x := by
  cases hcu : s.users user.uid with
  | some cu =>
      by_cases hxt : x = t
      · by_cases hta : t = user.uid
        · subst hxt; subst hta
          have htu : tu = cu := by rw [hcu] at ht; exact (Option.some_inj.mp ht).symm
          subst htu
          simp [followOkState, followersOf, followingOf, newFollowersList, hcu]
        · subst hxt
          simp [followOkState, followersOf, followingOf, newFollowersList, hcu, ht, hta]
      · by_cases hxa : x = user.uid
        · subst hxa
          simp [followOkState, followersOf, followingOf, hcu, hxt]
        · simp [followOkState, followersOf, hcu, hxt, hxa]
  | none =>
      have hta : ¬ t = user.uid := by
        intro h; rw [h, hcu] at ht; exact Option.noConfusion ht
      by_cases hxt : x = t
      · subst hxt
        simp [followOkState, followersOf, followingOf, newFollowersList, hcu, ht, hta]
      · by_cases hxa : x = user.uid
        · subst hxa
          simp [followOkState, followersOf, followingOf, hcu, hxt]
        · simp [followOkState, followersOf, hcu, hxt, hxa]

theorem followingCountOf_followOkState (s : ServerState) (user : AuthUser) (t : String)
    (tu : UserRec) (ht : s.users t = some tu) (x : String) :
    followingCountOf (followOkState s user t tu) x =
      if x = user.uid then (newFollowingList s user.uid t).length
      else followingCountOf s x := by
  cases hcu : s.users user.uid with
  | some cu =>
      by_cases hxt : x = t
      · by_cases hta : t = user.uid
        · subst hxt; subst hta
          simp [followOkState, followingCountOf, followingOf, newFollowingList, hcu]
        · subst hxt
          have hxa : ¬ x = user.uid := hta
          simp [followOkState, followingCountOf, followingOf, newFollowingList, hcu, ht,
            hxa, hta]
      · by_cases hxa : x = user.uid
        · subst hxa
          simp [followOkState, followingCountOf, followingOf, newFollowingList, hcu, hxt]
        · simp [followOkState, followingCountOf, hcu, hxt, hxa]
  | none =>
      have hta : ¬ t = user.uid := by
        intro h; rw [h, hcu] at ht; exact Option.noConfusion ht
      by_cases hxt : x = t
      · subst hxt
        have hxa : ¬ x = user.uid := hta
        simp [followOkState, followingCountOf, followingOf, newFollowingList, hcu, ht,
          hxa, hta]
      · by_cases hxa : x = user.uid
        · subst hxa
          simp [followOkState, followingCountOf, followingOf, newFollowingList, hcu, hxt]
        · simp [followOkState, followingCountOf, hcu, hxt, hxa]

theorem followersCountOf_followOkState (s : ServerState) (user : AuthUser) (t : String)
    (tu : UserRec) (ht : s.users t = some tu) (x : String) :
    followersCountOf (followOkState s user t tu) x =
      if x = t then (newFollowersList s user.uid t).length
      else followersCountOf s x := by
  cases hcu : s.users user.uid with
  | some cu =>
      by_cases hxt : x = t
      · by_cases hta : t = user.uid
        · subst hxt; subst hta
          have htu : tu = cu := by rw [hcu] at ht; exact (Option.some_inj.mp ht).symm
          subst htu
          simp [followOkState, followersCountOf, followersOf, followingOf,
            newFollowersList, hcu]
        · subst hxt
          simp [followOkState, followersCountOf, followersOf, followingOf,
            newFollowersList, hcu, ht, hta]
      · by_cases hxa : x = user.uid
        · subst hxa
          simp [followOkState, followersCountOf, followersOf, followingOf, hcu, hxt]
        · simp [followOkState, followersCountOf, hcu, hxt, hxa]
  | none =>
      have hta : ¬ t = user.uid := by
        intro h; rw [h, hcu] at ht; exact Option.noConfusion ht
      by_cases hxt : x = t
      · subst hxt
        simp [followOkState, followersCountOf, followersOf, followingOf,
          newFollowersList, hcu, ht, hta]
      · by_cases hxa : x = user.uid
        · subst hxa
          simp [followOkState, followersCountOf, followersOf, followingOf, hcu, hxt]
        · simp [followOkState, followersCountOf, hcu, hxt, hxa]

theorem posts_followOkState (s : ServerState) (user : AuthUser) (t : String)
    (tu : UserRec) : (followOkState s user t tu).posts = s.posts := by
  cases hcu : s.users user.uid <;> simp [followOkState, hcu]

theorem comments_followOkState (s : ServerState) (user : AuthUser) (t : String)
    (tu : UserRec) : (followOkState s user t tu).comments = s.comments := by
  cases hcu : s.users user.uid <;> simp [followOkState, hcu]

theorem handleFollow_ok_iff (s : ServerState) (user : AuthUser) (t : String)
    (s2 : ServerState) :
    handleFollow s user t = .ok s2 ↔
      ∃ tu, s.users t = some tu ∧ s2 = followOkState s user t tu := by
  unfold handleFollow
  cases ht : s.users t with
  | none => simp
  | some tu => constructor
               · intro h
                 exact ⟨tu, rfl, (Except.ok.inj h).symm⟩
               · rintro ⟨tu2, htu2, rfl⟩
                 rw [Option.some_inj.mp htu2]

/-! ### Characterization of the like transaction -/

/-- The post's likes array after a toggle, as the transaction computes it
from the pre-state. -/
def newLikesList (s : ServerState) (a p : String) : List String :=
  if a ∈ likesOf s p then (likesOf s p).filter (fun id => id ≠ a)
  else likesOf s p ++ [a]

theorem likesOf_likeOkState (s : ServerState) (user : AuthUser) (p : String)
    (pd : PostRec) (hp : s.posts p = some pd) (x : String) :
    likesOf (likeOkState s user p pd) x =
      if x = p then newLikesList s user.uid p else likesOf s x := by
  cases hus : s.users user.uid with
  | some u =>
      by_cases hxp : x = p
      · subst hxp
        simp [likeOkState, likesOf, newLikesList, hus, hp]
      · simp [likeOkState, likesOf, hus, hxp]
  | none =>
      by_cases hxp : x = p
      · subst hxp
        simp [likeOkState, likesOf, newLikesList, hus, hp]
      · simp [likeOkState, likesOf, hus, hxp]

theorem likeCountOf_likeOkState (s : ServerState) (user : AuthUser) (p : String)
    (pd : PostRec) (hp : s.posts p = some pd) (x : String) :
    likeCountOf (likeOkState s user p pd) x =
      if x = p then (newLikesList s user.uid p).length else likeCountOf s x := by
  cases hus : s.users user.uid with
  | some u =>
      by_cases hxp : x = p
      · subst hxp
        simp [likeOkState, likeCountOf, likesOf, newLikesList, hus, hp]
      · simp [likeOkState, likeCountOf, hus, hxp]
  | none =>
      by_cases hxp : x = p
      · subst hxp
        simp [likeOkState, likeCountOf, likesOf, newLikesList, hus, hp]
      · simp [likeOkState, likeCountOf, hus, hxp]

theorem followersOf_likeOkState (s : ServerState) (user : AuthUser) (p : String)
    (pd : PostRec) (x : String) :
    followersOf (likeOkState s user p pd) x = followersOf s x := by
  cases hus : s.users user.uid with
  | some u =>
      by_cases hxa : x = user.uid
      · subst hxa; simp [likeOkState, followersOf, hus]
      · simp [likeOkState, followersOf, hus, hxa]
  | none =>
      by_cases hxa : x = user.uid
      · subst hxa; simp [likeOkState, followersOf, hus]
      · simp [likeOkState, followersOf, hus, hxa]

theorem followingOf_likeOkState (s : ServerState) (user : AuthUser) (p : String)
    (pd : PostRec) (x : String) :
    followingOf (likeOkState s user p pd) x = followingOf s x := by
  cases hus : s.users user.uid with
  | some u =>
      by_cases hxa : x = user.uid
      · subst hxa; simp [likeOkState, followingOf, hus]
      · simp [likeOkState, followingOf, hus, hxa]
  | none =>
      by_cases hxa : x = user.uid
      · subst hxa; simp [likeOkState, followingOf, hus]
      · simp [likeOkState, followingOf, hus, hxa]

theorem followersCountOf_likeOkState (s : ServerState) (user : AuthUser) (p : String)
    (pd : PostRec) (x : String) :
    followersCountOf (likeOkState s user p pd) x = followersCountOf s x := by
  cases hus : s.users user.uid with
  | some u =>
      by_cases hxa : x = user.uid
      · subst hxa; simp [likeOkState, followersCountOf, hus]
      · simp [likeOkState, followersCountOf, hus, hxa]
  | none =>
      by_cases hxa : x = user.uid
      · subst hxa; simp [likeOkState, followersCountOf, hus]
      · simp [likeOkState, followersCountOf, hus, hxa]

theorem followingCountOf_likeOkState (s : ServerState) (user : AuthUser) (p : String)
    (pd : PostRec) (x : String) :
    followingCountOf (likeOkState s user p pd) x = followingCountOf s x := by
  cases hus : s.users user.uid with
  | some u =>
      by_cases hxa : x = user.uid
      · subst hxa; simp [likeOkState, followingCountOf, hus]
      · simp [likeOkState, followingCountOf, hus, hxa]
  | none =>
      by_cases hxa : x = user.uid
      · subst hxa; simp [likeOkState, followingCountOf, hus]
      · simp [likeOkState, followingCountOf, hus, hxa]

theorem toggleLike_ok_iff (s : ServerState) (user : AuthUser) (p : String)
    (s2 : ServerState) :
    toggleLike s user p = .ok s2 ↔
      ∃ pd, s.posts p = some pd ∧ s2 = likeOkState s user p pd := by
  unfold toggleLike
  cases hp : s.posts p with
  | none => simp
  | some pd => constructor
               · intro h
                 exact ⟨pd, rfl, (Except.ok.inj h).symm⟩
               · rintro ⟨pd2, hpd2, rfl⟩
                 rw [Option.some_inj.mp hpd2]

/-! ### Characterization of addComment -/

theorem users_addComment (s : ServerState) (user : AuthUser) (postId text : String) :
    (addComment s user postId text).users = s.users := by
  unfold addComment
  by_cases h : strTrim text = ""
  · simp [h]
  · simp only [h, if_neg h]
    cases hp : (pushComment s postId
        { text := strTrim text, userId := user.uid,
          userDisplayName := user.displayName.getD "Anonymous",
          userProfileImageUrl := "" }).posts postId <;> simp

theorem likesOf_addComment (s : ServerState) (user : AuthUser) (postId text : String)
    (x : String) :
    likesOf (addComment s user postId text) x = likesOf s x := by
  unfold addComment
  by_cases h : strTrim text = ""
  · simp [h]
  · simp only [if_neg h]
    set c : CommentRec :=
      { text := strTrim text, userId := user.uid,
        userDisplayName := user.displayName.getD "Anonymous",
        userProfileImageUrl := "" } with hc
    cases hp : (pushComment s postId c).posts postId with
    | none => simp [likesOf]
    | some p =>
        by_cases hxp : x = postId
        · subst hxp
          simp only [posts_pushComment] at hp
          simp [likesOf, hp]
        · simp [likesOf, hxp]

theorem likeCountOf_addComment (s : ServerState) (user : AuthUser)
    (postId text : String) (x : String) :
    likeCountOf (addComment s user postId text) x = likeCountOf s x := by
  unfold addComment
  by_cases h : strTrim text = ""
  · simp [h]
  · simp only [if_neg h]
    set c : CommentRec :=
      { text := strTrim text, userId := user.uid,
        userDisplayName := user.displayName.getD "Anonymous",
        userProfileImageUrl := "" } with hc
    cases hp : (pushComment s postId c).posts postId with
    | none => simp [likeCountOf]
    | some p =>
        by_cases hxp : x = postId
        · subst hxp
          simp only [posts_pushComment] at hp
          simp [likeCountOf, hp]
        · simp [likeCountOf, hxp]

/-! ### The account-creation and post-creation writes -/

theorem followersOf_signUp (s : ServerState) (uid email displayName : String)
    (hfresh : s.users uid = none) (x : String) :
    followersOf (setUser s uid (signUpUserDoc uid email displayName)) x =
      followersOf s x := by
  by_cases hx : x = uid
  · subst hx; simp [followersOf, signUpUserDoc, hfresh]
  · simp [followersOf, hx]

theorem followingOf_signUp (s : ServerState) (uid email displayName : String)
    (hfresh : s.users uid = none) (x : String) :
    followingOf (setUser s uid (signUpUserDoc uid email displayName)) x =
      followingOf s x := by
  by_cases hx : x = uid
  · subst hx; simp [followingOf, signUpUserDoc, hfresh]
  · simp [followingOf, hx]

theorem followersCountOf_signUp (s : ServerState) (uid email displayName : String)
    (hfresh : s.users uid = none) (x : String) :
    followersCountOf (setUser s uid (signUpUserDoc uid email displayName)) x =
      followersCountOf s x := by
  by_cases hx : x = uid
  · subst hx; simp [followersCountOf, signUpUserDoc, hfresh]
  · simp [followersCountOf, hx]

theorem followingCountOf_signUp (s : ServerState) (uid email displayName : String)
    (hfresh : s.users uid = none) (x : String) :
    followingCountOf (setUser s uid (signUpUserDoc uid email displayName)) x =
      followingCountOf s x := by
  by_cases hx : x = uid
  · subst hx; simp [followingCountOf, signUpUserDoc, hfresh]
  · simp [followingCountOf, hx]

theorem likesOf_createPost (s : ServerState) (postId userId text userDisplayName : String)
    (hfresh : s.posts postId = none) (x : String) :
    likesOf (setPost s postId (createPostDoc userId text userDisplayName)) x =
      likesOf s x := by
  by_cases hx : x = postId
  · subst hx; simp [likesOf, createPostDoc, hfresh]
  · simp [likesOf, hx]

theorem likeCountOf_createPost (s : ServerState)
    (postId userId text userDisplayName : String)
    (hfresh : s.posts postId = none) (x : String) :
    likeCountOf (setPost s postId (createPostDoc userId text userDisplayName)) x =
      likeCountOf s x := by
  by_cases hx : x = postId
  · subst hx; simp [likeCountOf, createPostDoc, hfresh]
  · simp [likeCountOf, hx]

/-! ### Congruence helpers -/

theorem likesOf_eq_of_posts_eq {s s2 : ServerState} (h : s2.posts = s.posts)
    (id : String) : likesOf s2 id = likesOf s id := by
  unfold likesOf; rw [h]

theorem likeCountOf_eq_of_posts_eq {s s2 : ServerState} (h : s2.posts = s.posts)
    (id : String) : likeCountOf s2 id = likeCountOf s id := by
  unfold likeCountOf; rw [h]

theorem followersOf_eq_of_users_eq {s s2 : ServerState} (h : s2.users = s.users)
    (id : String) : followersOf s2 id = followersOf s id := by
  unfold followersOf; rw [h]

theorem followingOf_eq_of_users_eq {s s2 : ServerState} (h : s2.users = s.users)
    (id : String) : followingOf s2 id = followingOf s id := by
  unfold followingOf; rw [h]

theorem followersCountOf_eq_of_users_eq {s s2 : ServerState} (h : s2.users = s.users)
    (id : String) : followersCountOf s2 id = followersCountOf s id := by
  unfold followersCountOf; rw [h]

theorem followingCountOf_eq_of_users_eq {s s2 : ServerState} (h : s2.users = s.users)
    (id : String) : followingCountOf s2 id = followingCountOf s id := by
  unfold followingCountOf; rw [h]

/-! ### Properties of the freshly computed arrays -/

theorem nodup_newFollowingList (s : ServerState) (a t : String)
    (h : (followingOf s a).Nodup) : (newFollowingList s a t).Nodup := by
  unfold newFollowingList
  split
  · exact h.filter _
  · rename_i hmem
    simp [List.nodup_append, h, hmem]

theorem mem_newFollowingList_of_ne (s : ServerState) (a t x : String) (hx : x ≠ t) :
    x ∈ newFollowingList s a t ↔ x ∈ followingOf s a := by
  unfold newFollowingList
  split <;> simp [hx]

theorem target_mem_newFollowingList (s : ServerState) (a t : String) :
    t ∈ newFollowingList s a t ↔ t ∉ followingOf s a := by
  unfold newFollowingList
  split
  · rename_i hmem; simp [hmem]
  · rename_i hmem; simp [hmem]

theorem nodup_newFollowersList (s : ServerState) (a t : String)
    (hT : (followersOf s t).Nodup)
    (hlink : a ∈ followersOf s t ↔ t ∈ followingOf s a) :
    (newFollowersList s a t).Nodup := by
  unfold newFollowersList
  split
  · exact hT.filter _
  · rename_i hmem
    have ha : a ∉ followersOf s t := fun hmem2 => hmem (hlink.mp hmem2)
    simp [List.nodup_append, hT, ha]

theorem mem_newFollowersList_of_ne (s : ServerState) (a t x : String) (hx : x ≠ a) :
    x ∈ newFollowersList s a t ↔ x ∈ followersOf s t := by
  unfold newFollowersList
  split <;> simp [hx]

theorem actor_mem_newFollowersList (s : ServerState) (a t : String) :
    a ∈ newFollowersList s a t ↔ t ∉ followingOf s a := by
  unfold newFollowersList
  split
  · rename_i hmem; simp [hmem]
  · rename_i hmem; simp [hmem]

theorem nodup_newLikesList (s : ServerState) (a p : String)
    (h : (likesOf s p).Nodup) : (newLikesList s a p).Nodup := by
  unfold newLikesList
  split
  · exact h.filter _
  · rename_i hmem
    simp [List.nodup_append, h, hmem]

/-! ### Invariant preservation -/

theorem countInv_follow (s s2 : ServerState) (user : AuthUser) (userId : String)
    (hcount : countInv s) (hlink : followLinkInv s)
    (h : handleFollow s user userId = .ok s2) : countInv s2 := by
  obtain ⟨tu, ht, rfl⟩ := (handleFollow_ok_iff s user userId s2).mp h
  intro id
  rw [followersOf_followOkState s user userId tu ht id,
      followingOf_followOkState s user userId tu ht id,
      followersCountOf_followOkState s user userId tu ht id,
      followingCountOf_followOkState s user userId tu ht id]
  by_cases hid_t : id = userId
  · by_cases hid_a : id = user.uid
    · simp only [if_pos hid_t, if_pos hid_a]
      exact ⟨nodup_newFollowersList s user.uid userId (hcount userId).1
          (hlink user.uid userId),
        nodup_newFollowingList s user.uid userId (hcount user.uid).2.1, trivial, trivial⟩
    · simp only [if_pos hid_t, if_neg hid_a]
      exact ⟨nodup_newFollowersList s user.uid userId (hcount userId).1
          (hlink user.uid userId),
        (hcount id).2.1, trivial, (hcount id).2.2.2⟩
  · by_cases hid_a : id = user.uid
    · simp only [if_neg hid_t, if_pos hid_a]
      exact ⟨(hcount id).1,
        nodup_newFollowingList s user.uid userId (hcount user.uid).2.1,
        (hcount id).2.2.1, trivial⟩
    · simp only [if_neg hid_t, if_neg hid_a]
      exact (hcount id)

theorem followLinkInv_follow (s s2 : ServerState) (user : AuthUser) (userId : String)
    (hlink : followLinkInv s)
    (h : handleFollow s user userId = .ok s2) : followLinkInv s2 := by
  obtain ⟨tu, ht, rfl⟩ := (handleFollow_ok_iff s user userId s2).mp h
  intro a b
  rw [followersOf_followOkState s user userId tu ht b,
      followingOf_followOkState s user userId tu ht a]
  by_cases hb : b = userId
  · by_cases ha : a = user.uid
    · simp only [if_pos hb, if_pos ha]
      rw [ha, hb, actor_mem_newFollowersList, target_mem_newFollowingList]
    · simp only [if_pos hb, if_neg ha]
      rw [hb, mem_newFollowersList_of_ne s user.uid userId a ha]
      exact hlink a userId
  · by_cases ha : a = user.uid
    · simp only [if_neg hb, if_pos ha]
      rw [ha, mem_newFollowingList_of_ne s user.uid userId b hb]
      exact hlink user.uid b
    · simp only [if_neg hb, if_neg ha]
      exact hlink a b

theorem likeInv_follow (s s2 : ServerState) (user : AuthUser) (userId : String)
    (hlike : likeInv s)
    (h : handleFollow s user userId = .ok s2) : likeInv s2 := by
  obtain ⟨tu, ht, rfl⟩ := (handleFollow_ok_iff s user userId s2).mp h
  intro id
  rw [likesOf_eq_of_posts_eq (posts_followOkState s user userId tu) id,
      likeCountOf_eq_of_posts_eq (posts_followOkState s user userId tu) id]
  exact hlike id

theorem stateInv_follow (s s2 : ServerState) (user : AuthUser) (userId : String)
    (hinv : stateInv s)
    (h : handleFollow s user userId = .ok s2) : stateInv s2 :=
  ⟨countInv_follow s s2 user userId hinv.1 hinv.2.1 h,
   followLinkInv_follow s s2 user userId hinv.2.1 h,
   likeInv_follow s s2 user userId hinv.2.2 h⟩

theorem stateInv_like (s s2 : ServerState) (user : AuthUser) (postId : String)
    (hinv : stateInv s)
    (h : toggleLike s user postId = .ok s2) : stateInv s2 := by
  obtain ⟨pd, hp, rfl⟩ := (toggleLike_ok_iff s user postId s2).mp h
  obtain ⟨hcount, hlink, hlike⟩ := hinv
  refine ⟨?_, ?_, ?_⟩
  · intro id
    rw [followersOf_likeOkState s user postId pd id,
        followingOf_likeOkState s user postId pd id,
        followersCountOf_likeOkState s user postId pd id,
        followingCountOf_likeOkState s user postId pd id]
    exact hcount id
  · intro a b
    rw [followersOf_likeOkState s user postId pd b,
        followingOf_likeOkState s user postId pd a]
    exact hlink a b
  · intro id
    rw [likesOf_likeOkState s user postId pd hp id,
        likeCountOf_likeOkState s user postId pd hp id]
    by_cases hid : id = postId
    · simp only [hid, if_pos rfl]
      exact ⟨nodup_newLikesList s user.uid postId (hlike postId).1, rfl⟩
    · simp only [if_neg hid]
      exact hlike id

theorem stateInv_comment (s : ServerState) (user : AuthUser) (postId text : String)
    (hinv : stateInv s) : stateInv (addComment s user postId text) := by
  obtain ⟨hcount, hlink, hlike⟩ := hinv
  have hu := users_addComment s user postId text
  refine ⟨?_, ?_, ?_⟩
  · intro id
    rw [followersOf_eq_of_users_eq hu id, followingOf_eq_of_users_eq hu id,
        followersCountOf_eq_of_users_eq hu id, followingCountOf_eq_of_users_eq hu id]
    exact hcount id
  · intro a b
    rw [followersOf_eq_of_users_eq hu b, followingOf_eq_of_users_eq hu a]
    exact hlink a b
  · intro id
    rw [likesOf_addComment s user postId text id,
        likeCountOf_addComment s user postId text id]
    exact hlike id

theorem stateInv_signUp (s : ServerState) (uid email displayName : String)
    (hfresh : s.users uid = none) (hinv : stateInv s) :
    stateInv (setUser s uid (signUpUserDoc uid email displayName)) := by
  obtain ⟨hcount, hlink, hlike⟩ := hinv
  have hp : (setUser s uid (signUpUserDoc uid email displayName)).posts = s.posts :=
    posts_setUser s uid _
  refine ⟨?_, ?_, ?_⟩
  · intro id
    rw [followersOf_signUp s uid email displayName hfresh id,
        followingOf_signUp s uid email displayName hfresh id,
        followersCountOf_signUp s uid email displayName hfresh id,
        followingCountOf_signUp s uid email displayName hfresh id]
    exact hcount id
  · intro a b
    rw [followersOf_signUp s uid email displayName hfresh b,
        followingOf_signUp s uid email displayName hfresh a]
    exact hlink a b
  · intro id
    rw [likesOf_eq_of_posts_eq hp id, likeCountOf_eq_of_posts_eq hp id]
    exact hlike id

theorem stateInv_createPost (s : ServerState)
    (postId userId text userDisplayName : String)
    (hfresh : s.posts postId = none) (hinv : stateInv s) :
    stateInv (setPost s postId (createPostDoc userId text userDisplayName)) := by
  obtain ⟨hcount, hlink, hlike⟩ := hinv
  have hu : (setPost s postId (createPostDoc userId text userDisplayName)).users =
      s.users := users_setPost s postId _
  refine ⟨?_, ?_, ?_⟩
  · intro id
    rw [followersOf_eq_of_users_eq hu id, followingOf_eq_of_users_eq hu id,
        followersCountOf_eq_of_users_eq hu id, followingCountOf_eq_of_users_eq hu id]
    exact hcount id
  · intro a b
    rw [followersOf_eq_of_users_eq hu b, followingOf_eq_of_users_eq hu a]
    exact hlink a b
  · intro id
    rw [likesOf_createPost s postId userId text userDisplayName hfresh id,
        likeCountOf_createPost s postId userId text userDisplayName hfresh id]
    exact hlike id

theorem stateInv_init : stateInv initState := by
  refine ⟨fun id => ?_, fun a b => ?_, fun id => ?_⟩
  · simp [followersOf, followingOf, followersCountOf, followingCountOf, initState]
  · simp [followersOf, followingOf, initState]
  · simp [likesOf, likeCountOf, initState]

theorem stateInv_step {s s2 : ServerState} (hinv : stateInv s) (hstep : Step s s2) :
    stateInv s2 := by
  cases hstep with
  | signUp uid email displayName hfresh =>
      exact stateInv_signUp _ uid email displayName hfresh hinv
  | createPost postId userId text userDisplayName hfresh =>
      exact stateInv_createPost _ postId userId text userDisplayName hfresh hinv
  | follow s3 user userId h => exact stateInv_follow _ _ user userId hinv h
  | like s3 user postId h => exact stateInv_like _ _ user postId hinv h
  | comment user postId text => exact stateInv_comment _ user postId text hinv

theorem reachable_stateInv {s : ServerState} (h : Reachable s) : stateInv s := by
  induction h with
  | init => exact stateInv_init
  | step _ hstep ih => exact stateInv_step ih hstep

/-! ### The toggle pattern at the list level -/

/-- The membership toggle both transactions perform on an array: remove
every occurrence when present, append when absent. -/
def toggleMem (l : List String) (x : String) : List String :=
  if x ∈ l then l.filter (fun id => id ≠ x) else l ++ [x]

theorem filter_ne_of_not_mem {l : List String} {a : String} (ha : a ∉ l) :
    l.filter (fun id => id ≠ a) = l := by
  rw [List.filter_eq_self]
  intro x hx
  simp only [ne_eq, decide_not, Bool.not_eq_true', decide_eq_false_iff_not]
  exact fun h => ha (h ▸ hx)

theorem not_mem_filter_ne {l : List String} (a : String) :
    a ∉ l.filter (fun id => id ≠ a) := by
  intro h
  have := (List.mem_filter.mp h).2
  simp at this

theorem mem_filter_ne {l : List String} {a x : String} :
    x ∈ l.filter (fun id => id ≠ a) ↔ x ∈ l ∧ x ≠ a := by
  rw [List.mem_filter]
  simp

theorem length_filter_ne_add_one {l : List String} (h : List.Nodup l) {a : String}
    (ha : a ∈ l) : (l.filter (fun id => id ≠ a)).length + 1 = l.length := by
  induction l with
  | nil => cases ha
  | cons b l ih =>
      rw [List.nodup_cons] at h
      by_cases hba : b = a
      · subst hba
        rw [List.filter_cons_of_neg (by simp), filter_ne_of_not_mem h.1]
        simp
      · have ha2 : a ∈ l := by
          rcases List.mem_cons.mp ha with h2 | h2
          · exact absurd h2.symm hba
          · exact h2
        rw [List.filter_cons_of_pos (by simp [hba])]
        simp only [List.length_cons]
        have := ih h.2 ha2
        omega

theorem self_mem_toggleMem (l : List String) (x : String) :
    x ∈ toggleMem l x ↔ x ∉ l := by
  unfold toggleMem
  split
  · rename_i hx
    simp [not_mem_filter_ne, hx]
  · rename_i hx
    simp [hx]

theorem mem_toggleMem_of_ne (l : List String) {x y : String} (hy : y ≠ x) :
    y ∈ toggleMem l x ↔ y ∈ l := by
  unfold toggleMem
  split <;> simp [mem_filter_ne, hy]

theorem toggleMem_twice_mem (l : List String) (x : String) (y : String) :
    y ∈ toggleMem (toggleMem l x) x ↔ y ∈ l := by
  by_cases hyx : y = x
  · subst hyx
    rw [self_mem_toggleMem, self_mem_toggleMem]
    tauto
  · rw [mem_toggleMem_of_ne _ hyx, mem_toggleMem_of_ne _ hyx]

theorem toggleMem_twice_length (l : List String) (x : String) (h : List.Nodup l) :
    (toggleMem (toggleMem l x) x).length = l.length := by
  by_cases hx : x ∈ l
  · have h1 : toggleMem l x = l.filter (fun id => id ≠ x) := if_pos hx
    have h2 : toggleMem (toggleMem l x) x = toggleMem l x ++ [x] := by
      rw [toggleMem, if_neg]
      rw [h1]
      exact not_mem_filter_ne x
    rw [h2, h1, List.length_append, List.length_singleton,
      length_filter_ne_add_one h hx]
  · have h1 : toggleMem l x = l ++ [x] := if_neg hx
    have h2 : toggleMem (toggleMem l x) x = l := by
      rw [toggleMem, if_pos, h1, List.filter_append, filter_ne_of_not_mem hx]
      · simp
      · rw [h1]; simp
    rw [h2]

theorem newFollowingList_eq_toggleMem (s : ServerState) (a t : String) :
    newFollowingList s a t = toggleMem (followingOf s a) t := rfl

theorem newFollowersList_eq_toggleMem (s : ServerState) (a t : String)
    (hlink : a ∈ followersOf s t ↔ t ∈ followingOf s a) :
    newFollowersList s a t = toggleMem (followersOf s t) a := by
  unfold newFollowersList toggleMem
  by_cases hf : t ∈ followingOf s a
  · rw [if_pos hf, if_pos (hlink.mpr hf)]
  · rw [if_neg hf, if_neg (fun ha => hf (hlink.mp ha))]

/-! ### Feed ranking (HomeScreen.tsx)

Scores are rationals; the haversine geometry (sine, cosine, atan2 over
real numbers) is abstracted into a distance function passed as a
parameter, since every claim about ranking is a function of the resolved
viewer-to-author distance. -/

/-- The viewer profile state HomeScreen keeps: location is
data.location-or-null, sportRatings is data.sportRatings-or-empty (so a
loaded profile always carries some ratings object, possibly empty). -/
structure UserProfile where
  location : Option Location
  sportRatings : Option SportRatings

/-- A post as delivered by the posts snapshot: document id plus data. -/
structure SnapshotPost where
  id : String
  data : PostRec
deriving DecidableEq

/-- The eight field accessors corresponding to the sports array in
calculateSportRatingDifference. -/
def sportsFields : List (SportRatings → Option ℚ) :=
  [SportRatings.tennis, SportRatings.basketball, SportRatings.soccer,
   SportRatings.football, SportRatings.baseball, SportRatings.golf,
   SportRatings.swimming, SportRatings.running]

/-- Math.abs on the rationals standing in for JS numbers. -/
def ratAbs (q : ℚ) : ℚ :=
  if q < 0 then -q else q

theorem ratAbs_eq_abs (q : ℚ) : ratAbs q = |q| := by
  unfold ratAbs
  by_cases h : q < 0
  · rw [if_pos h, abs_of_neg h]
  · rw [if_neg h, abs_of_nonneg (not_lt.mp h)]

/-- Math.min on the rationals standing in for JS numbers. -/
def ratMin (a b : ℚ) : ℚ :=
  if a ≤ b then a else b

theorem ratMin_eq_min (a b : ℚ) : ratMin a b = min a b := by
  unfold ratMin
  rw [min_def]

/-- JS truthiness of a rating lookup: the key must be present and the
value nonzero. -/
def truthyRating (r : Option ℚ) : Prop :=
  match r with
  | some a => a ≠ 0
  | none => False

instance (r : Option ℚ) : Decidable (truthyRating r) := by
  unfold truthyRating
  cases r with
  | none => exact inferInstance
  | some a => exact inferInstance

/-- calculateSportRatingDifference (HomeScreen.tsx lines 58 to 74):
returns none for the JS Infinity sentinel.  The loop accumulates the
total absolute difference and the number of sports rated (truthily) by
both sides. -/
def calculateSportRatingDifference (userRatings postUserRatings : Option SportRatings) :
    Option ℚ :=
  match userRatings, postUserRatings with
  | some ur, some pr =>
      let acc := sportsFields.foldl
        (fun (acc : ℚ × ℕ) sport =>
          if truthyRating (sport ur) ∧ truthyRating (sport pr) then
            (acc.1 + ratAbs ((sport ur).getD 0 - (sport pr).getD 0), acc.2 + 1)
          else acc)
        (0, 0)
      if acc.2 = 0 then none else some (acc.1 / (acc.2 : ℚ))
  | _, _ => none

/-- The per-sport absolute differences over the sports rated (truthily)
by both sides, in sports-array order; a proof-side companion of the loop
in calculateSportRatingDifference. -/
def commonDiffs (ur pr : SportRatings) : List ℚ :=
  sportsFields.filterMap
    (fun sport =>
      if truthyRating (sport ur) ∧ truthyRating (sport pr) then
        some (ratAbs ((sport ur).getD 0 - (sport pr).getD 0))
      else none)

/-- The location-score piecewise scale (HomeScreen.tsx lines 164 to 175);
none is the JS Infinity sentinel for an unknown distance. -/
def locationScore (distance : Option ℚ) : ℚ :=
  match distance with
  | none => 1000
  | some d =>
      if d ≤ 10 then d * 10
      else if d ≤ 50 then 100 + (d - 10) * 5
      else if d ≤ 200 then 300 + (d - 50) * 2
      else 600 + ratMin (d - 200) 400

/-- The rating score (HomeScreen.tsx line 177): fixed penalty 100 for an
unknown affinity, otherwise the affinity times ten. -/
def ratingScore (ratingDifference : Option ℚ) : ℚ :=
  match ratingDifference with
  | none => 100
  | some r => r * 10

/-- The total score of one candidate post (HomeScreen.tsx lines 142 to
178): resolve the author location (post snapshot first, then live
profile), resolve the distance when both locations are known, and
combine location and rating scores 70/30. -/
def scorePost (dist : Location → Location → ℚ) (currentUserProfile : UserProfile)
    (users : String → Option UserRec) (post : SnapshotPost) : ℚ :=
  let postUser := users post.data.userId
  let postUserLocation := post.data.userLocation.orElse
    (fun _ => postUser.bind UserRec.location)
  let distance : Option ℚ :=
    match currentUserProfile.location, postUserLocation with
    | some vloc, some ploc => some (dist vloc ploc)
    | _, _ => none
  let ratingDifference := calculateSportRatingDifference
    currentUserProfile.sportRatings
    (post.data.userSportRatings.orElse (fun _ => postUser.map UserRec.sportRatings))
  locationScore distance * (7 / 10) + ratingScore ratingDifference * (3 / 10)

/-- The sort comparator (a, b) => a.score - b.score as the ascending
order on scores. -/
def scoreLE (a b : SnapshotPost × ℚ) : Bool :=
  a.2 ≤ b.2

/-- The scored, self-excluded, sorted candidate list built by
generateRecommendations (HomeScreen.tsx lines 140 to 190).  The JS sort
comparator (a, b) => a.score - b.score is a stable ascending sort by
score, modelled by mergeSort. -/
def generateRecommendations (dist : Location → Location → ℚ) (uid : String)
    (currentUserProfile : UserProfile) (users : String → Option UserRec)
    (recentPosts : List SnapshotPost) : List (SnapshotPost × ℚ) :=
  (((recentPosts.filter (fun post => post.data.userId ≠ uid)).map
      (fun post => (post, scorePost dist currentUserProfile users post))).mergeSort
    scoreLE)

/-- The recommended slice: scoredPosts.slice(0, 20). -/
def recommendedPosts (dist : Location → Location → ℚ) (uid : String)
    (currentUserProfile : UserProfile) (users : String → Option UserRec)
    (recentPosts : List SnapshotPost) : List (SnapshotPost × ℚ) :=
  (generateRecommendations dist uid currentUserProfile users recentPosts).take 20

/-- Object.keys(sportRatings).length: the number of keys present in the
ratings object (a key rated 0 still counts as present). -/
def ratingsKeyCount (r : SportRatings) : Nat :=
  (sportsFields.filter (fun sport => (sport r).isSome)).length

/-- The feed effect (HomeScreen.tsx lines 121 to 127 and 191 to 194):
ranking runs only when there are posts and the viewer has a location or
at least one ratings key; the users fetch is none when getDocs throws,
in which case the catch block falls back to the self-excluded recency
list.  Returns the list stored into the posts state. -/
def feedPosts (dist : Location → Location → ℚ) (uid : String)
    (currentUserProfile : UserProfile)
    (usersFetch : Option (String → Option UserRec))
    (recentPosts : List SnapshotPost) : List SnapshotPost :=
  if 0 < recentPosts.length ∧
      (currentUserProfile.location.isSome ∨
        0 < ratingsKeyCount (currentUserProfile.sportRatings.getD emptyRatings)) then
    match usersFetch with
    | some users =>
        (generateRecommendations dist uid currentUserProfile users recentPosts).map
          Prod.fst
    | none => recentPosts.filter (fun post => post.data.userId ≠ uid)
  else recentPosts.filter (fun post => post.data.userId ≠ uid)

/-! ### The rating loop versus its list of common differences -/

theorem foldl_rating_acc (ur pr : SportRatings)
    (fields : List (SportRatings → Option ℚ)) (init : ℚ × ℕ) :
    fields.foldl
        (fun (acc : ℚ × ℕ) sport =>
          if truthyRating (sport ur) ∧ truthyRating (sport pr) then
            (acc.1 + ratAbs ((sport ur).getD 0 - (sport pr).getD 0), acc.2 + 1)
          else acc)
        init =
      (init.1 + (fields.filterMap
          (fun sport =>
            if truthyRating (sport ur) ∧ truthyRating (sport pr) then
              some (ratAbs ((sport ur).getD 0 - (sport pr).getD 0))
            else none)).sum,
       init.2 + (fields.filterMap
          (fun sport =>
            if truthyRating (sport ur) ∧ truthyRating (sport pr) then
              some (ratAbs ((sport ur).getD 0 - (sport pr).getD 0))
            else none)).length) := by
  induction fields generalizing init with
  | nil => simp
  | cons sport fields ih =>
      rw [List.foldl_cons, List.filterMap_cons]
      by_cases hcond : truthyRating (sport ur) ∧ truthyRating (sport pr)
      · rw [if_pos hcond, if_pos hcond, ih]
        simp only [List.sum_cons, List.length_cons, Prod.mk.injEq]
        refine ⟨?_, ?_⟩
        · rw [add_assoc]
        · rw [Nat.add_assoc, Nat.add_comm 1 _]
      · rw [if_neg hcond, if_neg hcond, ih]

theorem calculateSportRatingDifference_eq (ur pr : SportRatings) :
    calculateSportRatingDifference (some ur) (some pr) =
      if commonDiffs ur pr = [] then none
      else some ((commonDiffs ur pr).sum / ((commonDiffs ur pr).length : ℚ)) := by
  unfold calculateSportRatingDifference commonDiffs
  dsimp only
  rw [foldl_rating_acc]
  simp only [Nat.zero_add, zero_add]
  by_cases hnil : (sportsFields.filterMap
      (fun sport =>
        if truthyRating (sport ur) ∧ truthyRating (sport pr) then
          some (ratAbs ((sport ur).getD 0 - (sport pr).getD 0))
        else none)) = []
  · rw [if_pos hnil]
    simp [hnil]
  · rw [if_neg hnil]
    rw [if_neg (by simpa using fun h => hnil (List.length_eq_zero.mp h))]

theorem commonDiffs_eq_nil_iff (ur pr : SportRatings) :
    commonDiffs ur pr = [] ↔
      ∀ sport ∈ sportsFields,
        ¬(truthyRating (sport ur) ∧ truthyRating (sport pr)) := by
  unfold commonDiffs
  rw [List.filterMap_eq_nil_iff]
  constructor
  · intro h sport hs hcond
    have := h sport hs
    rw [if_pos hcond] at this
    exact Option.noConfusion this
  · intro h sport hs
    rw [if_neg (h sport hs)]

/-! ### Feed ordering support -/

/-- The author location the ranking resolves for a candidate: the post's
denormalized snapshot first, the live profile second. -/
def resolvedAuthorLocation (users : String → Option UserRec) (post : SnapshotPost) :
    Option Location :=
  post.data.userLocation.orElse (fun _ => (users post.data.userId).bind UserRec.location)

/-- The resolved viewer-to-author distance; none when either side's
location is unknown. -/
def resolvedDistance (dist : Location → Location → ℚ)
    (currentUserProfile : UserProfile) (users : String → Option UserRec)
    (post : SnapshotPost) : Option ℚ :=
  match currentUserProfile.location, resolvedAuthorLocation users post with
  | some vloc, some ploc => some (dist vloc ploc)
  | _, _ => none

/-- The resolved rating-affinity difference for a candidate. -/
def resolvedRatingDifference (currentUserProfile : UserProfile)
    (users : String → Option UserRec) (post : SnapshotPost) : Option ℚ :=
  calculateSportRatingDifference currentUserProfile.sportRatings
    (post.data.userSportRatings.orElse
      (fun _ => (users post.data.userId).map UserRec.sportRatings))

theorem scorePost_eq (dist : Location → Location → ℚ)
    (currentUserProfile : UserProfile) (users : String → Option UserRec)
    (post : SnapshotPost) :
    scorePost dist currentUserProfile users post =
      (7 / 10) * locationScore (resolvedDistance dist currentUserProfile users post) +
      (3 / 10) * ratingScore (resolvedRatingDifference currentUserProfile users post) := by
  unfold scorePost resolvedDistance resolvedAuthorLocation resolvedRatingDifference
  ring

theorem scoreLE_trans (a b c : SnapshotPost × ℚ) (hab : scoreLE a b) (hbc : scoreLE b c) :
    scoreLE a c :=
  decide_eq_true (le_trans (of_decide_eq_true hab) (of_decide_eq_true hbc))

theorem scoreLE_total (a b : SnapshotPost × ℚ) : scoreLE a b || scoreLE b a := by
  simp only [scoreLE, Bool.or_eq_true, decide_eq_true_eq]
  exact le_total a.2 b.2

theorem generateRecommendations_sorted (dist : Location → Location → ℚ) (uid : String)
    (currentUserProfile : UserProfile) (users : String → Option UserRec)
    (recentPosts : List SnapshotPost) :
    (generateRecommendations dist uid currentUserProfile users recentPosts).Pairwise
      (fun a b => a.2 ≤ b.2) := by
  have h := @List.sorted_mergeSort (SnapshotPost × ℚ) scoreLE scoreLE_trans scoreLE_total
    ((recentPosts.filter (fun post => post.data.userId ≠ uid)).map
      (fun post => (post, scorePost dist currentUserProfile users post)))
  refine List.Pairwise.imp ?_ h
  intro a b hab
  exact of_decide_eq_true hab

theorem generateRecommendations_perm (dist : Location → Location → ℚ) (uid : String)
    (currentUserProfile : UserProfile) (users : String → Option UserRec)
    (recentPosts : List SnapshotPost) :
    (generateRecommendations dist uid currentUserProfile users recentPosts).Perm
      ((recentPosts.filter (fun post => post.data.userId ≠ uid)).map
        (fun post => (post, scorePost dist currentUserProfile users post))) :=
  List.mergeSort_perm _ _

theorem generateRecommendations_stable (dist : Location → Location → ℚ) (uid : String)
    (currentUserProfile : UserProfile) (users : String → Option UserRec)
    (recentPosts : List SnapshotPost) (x y : SnapshotPost × ℚ)
    (hxy : x.2 ≤ y.2)
    (hsub : List.Sublist [x, y]
      ((recentPosts.filter (fun post => post.data.userId ≠ uid)).map
        (fun post => (post, scorePost dist currentUserProfile users post)))) :
    List.Sublist [x, y]
      (generateRecommendations dist uid currentUserProfile users recentPosts) :=
  List.pair_sublist_mergeSort scoreLE_trans scoreLE_total (decide_eq_true hxy) hsub

/-- Deciding a two-element sorted permutation: a list that is a
permutation of the pair and sorted by a strictly separating score must
list the smaller-scored element first. -/
theorem eq_pair_of_perm_of_sorted {α : Type} [DecidableEq α] (f : α → ℚ) {x y : α}
    {out : List α} (hperm : out.Perm [x, y])
    (hsort : out.Pairwise (fun a b => f a ≤ f b)) (hxy : f x < f y) :
    out = [x, y] := by
  have hxney : x ≠ y := fun h => absurd hxy (by rw [h]; exact lt_irrefl _)
  have hlen : out.length = 2 := by
    rw [hperm.length_eq]; rfl
  match out, hlen, hperm, hsort with
  | [u, v], _, hperm, hsort =>
    have hu : u ∈ [x, y] := hperm.subset (by simp)
    rcases List.mem_cons.mp hu with hux | huy
    · rw [hux] at hperm ⊢
      have hv : [v].Perm [y] := hperm.cons_inv
      rw [List.perm_singleton.mp hv]
    · have huy2 : u = y := by simpa using huy
      exfalso
      have hv : v ∈ [x, y] := hperm.subset (by simp)
      rcases List.mem_cons.mp hv with hvx | hvy
      · have hle : f u ≤ f v := (List.pairwise_cons.mp hsort).1 v (by simp)
        rw [huy2, hvx] at hle
        exact absurd hle (not_le.mpr hxy)
      · have hvy2 : v = y := by simpa using hvy
        have hcx := hperm.count_eq x
        rw [huy2, hvy2] at hcx
        simp [List.count_cons, hxney, Ne.symm hxney] at hcx

/-! ### Concrete witness data -/

/-- A concrete auth user. -/
def wUserA : AuthUser :=
  { uid := "alice", email := some "alice@mail", displayName := some "Alice" }

/-- Store after alice registers. -/
def wState1 : ServerState :=
  setUser initState "alice" (signUpUserDoc "alice" "alice@mail" "Alice")

/-- Store after bob registers. -/
def wState2 : ServerState :=
  setUser wState1 "bob" (signUpUserDoc "bob" "bob@mail" "Bob")

/-- Store after alice follows bob. -/
def wState3 : ServerState :=
  match handleFollow wState2 wUserA "bob" with
  | .ok s => s
  | .error _ => wState2

/-- Store after alice follows bob twice (toggled back off). -/
def wState4 : ServerState :=
  match handleFollow wState3 wUserA "bob" with
  | .ok s => s
  | .error _ => wState3

theorem wState3_eq : handleFollow wState2 wUserA "bob" = .ok wState3 := rfl

theorem wState4_eq : handleFollow wState3 wUserA "bob" = .ok wState4 := rfl

theorem wReach2 : Reachable wState2 :=
  Reachable.step
    (Reachable.step Reachable.init (Step.signUp initState "alice" "alice@mail" "Alice" rfl))
    (Step.signUp wState1 "bob" "bob@mail" "Bob" rfl)

theorem wReach3 : Reachable wState3 :=
  Reachable.step wReach2 (Step.follow wState2 wState3 wUserA "bob" wState3_eq)

/-- Store after bob's post p1 is created. -/
def wPostState : ServerState :=
  setPost initState "p1" (createPostDoc "bob" "first post" "Bob")

/-- Store after alice likes p1. -/
def wLikeState : ServerState :=
  match toggleLike wPostState wUserA "p1" with
  | .ok s => s
  | .error _ => wPostState

theorem wLikeState_eq : toggleLike wPostState wUserA "p1" = .ok wLikeState := rfl

theorem wReachLike : Reachable wLikeState :=
  Reachable.step
    (Reachable.step Reachable.init (Step.createPost initState "p1" "bob" "first post" "Bob" rfl))
    (Step.like wPostState wLikeState wUserA "p1" wLikeState_eq)

/-- A concrete distance function standing in for the haversine on the
example coordinates: 5 km to the author at latitude 1, 60 km otherwise. -/
def exDist : Location → Location → ℚ :=
  fun _ aloc => if aloc.latitude = 1 then 5 else 60

/-- The example candidate 5 km away. -/
def exNear : SnapshotPost :=
  { id := "near",
    data :=
      { text := "near post", userId := "nearAuthor", userDisplayName := "Near",
        userProfileImageUrl := "", likeCount := 0, commentCount := 0, likes := [],
        userLocation := some { latitude := 1, longitude := 1 },
        userSportRatings := none } }

/-- The example candidate 60 km away, with ratings identical to the near
candidate. -/
def exFar : SnapshotPost :=
  { id := "far",
    data :=
      { text := "far post", userId := "farAuthor", userDisplayName := "Far",
        userProfileImageUrl := "", likeCount := 0, commentCount := 0, likes := [],
        userLocation := some { latitude := 2, longitude := 2 },
        userSportRatings := none } }

/-- A second 5 km candidate with the same score as exNear, for the
stability instance. -/
def exNear2 : SnapshotPost :=
  { id := "near2",
    data :=
      { text := "second near post", userId := "nearAuthor2", userDisplayName := "Near2",
        userProfileImageUrl := "", likeCount := 0, commentCount := 0, likes := [],
        userLocation := some { latitude := 1, longitude := 2 },
        userSportRatings := none } }

/-- The example viewer at the origin with one tennis rating. -/
def exProfile : UserProfile :=
  { location := some { latitude := 0, longitude := 0 },
    sportRatings := some { tennis := some 4 } }

/-- The example users fetch: no live profiles (both posts carry their
denormalized snapshots). -/
def exUsers : String → Option UserRec := fun _ => none

theorem exNear_distance : resolvedDistance exDist exProfile exUsers exNear = some 5 := by
  simp [resolvedDistance, resolvedAuthorLocation, exDist, exNear, exProfile, exUsers,
    Option.orElse]

theorem exNear2_distance : resolvedDistance exDist exProfile exUsers exNear2 = some 5 := by
  simp [resolvedDistance, resolvedAuthorLocation, exDist, exNear2, exProfile, exUsers,
    Option.orElse]

theorem exFar_distance : resolvedDistance exDist exProfile exUsers exFar = some 60 := by
  have h2 : ((2 : ℚ)) ≠ 1 := by norm_num
  simp [resolvedDistance, resolvedAuthorLocation, exDist, exFar, exProfile, exUsers,
    Option.orElse, h2]

theorem exNear_rating : resolvedRatingDifference exProfile exUsers exNear = none := by
  simp [resolvedRatingDifference, exNear, exProfile, exUsers, Option.orElse,
    calculateSportRatingDifference]

theorem exNear2_rating : resolvedRatingDifference exProfile exUsers exNear2 = none := by
  simp [resolvedRatingDifference, exNear2, exProfile, exUsers, Option.orElse,
    calculateSportRatingDifference]

theorem exFar_rating : resolvedRatingDifference exProfile exUsers exFar = none := by
  simp [resolvedRatingDifference, exFar, exProfile, exUsers, Option.orElse,
    calculateSportRatingDifference]

theorem exNear_score : scorePost exDist exProfile exUsers exNear = 65 := by
  rw [scorePost_eq, exNear_distance, exNear_rating]
  norm_num [locationScore, ratingScore]

theorem exNear2_score : scorePost exDist exProfile exUsers exNear2 = 65 := by
  rw [scorePost_eq, exNear2_distance, exNear2_rating]
  norm_num [locationScore, ratingScore]

theorem exFar_score : scorePost exDist exProfile exUsers exFar = 254 := by
  rw [scorePost_eq, exFar_distance, exFar_rating]
  norm_num [locationScore, ratingScore]

/-! ## The claims -/

/-- C1: in every reachable state every user's followersCount and
followingCount equal the cardinality of the corresponding follower and
following sets, and the handleFollow transaction (ToggleFollow) preserves
the bidirectional edge invariant (A in B.followers iff B in A.following),
both sides being updated in the same transaction with counts recomputed
from the post-mutation sets. -/
theorem claim1_follow_invariants :
    (∀ s, Reachable s → ∀ id,
        followersCountOf s id = (followersOf s id).toFinset.card ∧
        followingCountOf s id = (followingOf s id).toFinset.card) ∧
    (∀ s s2 user userId, followLinkInv s →
        handleFollow s user userId = .ok s2 → followLinkInv s2) := by
  constructor
  · intro s hs id
    obtain ⟨hcount, -, -⟩ := reachable_stateInv hs
    obtain ⟨h1, h2, h3, h4⟩ := hcount id
    constructor
    · rw [h3]
      exact (List.toFinset_card_of_nodup h1).symm
    · rw [h4]
      exact (List.toFinset_card_of_nodup h2).symm
  · exact fun s s2 user userId hl h => followLinkInv_follow s s2 user userId hl h

/-- Witness for C1 at the concrete reachable store in which alice has
followed bob. -/
theorem claim1_follow_invariants_witness :
    (followersCountOf wState3 "bob" = (followersOf wState3 "bob").toFinset.card ∧
     followingCountOf wState3 "bob" = (followingOf wState3 "bob").toFinset.card) ∧
    followLinkInv wState3 :=
  ⟨claim1_follow_invariants.1 wState3 wReach3 "bob",
   claim1_follow_invariants.2 wState2 wState3 wUserA "bob"
     (reachable_stateInv wReach2).2.1 wState3_eq⟩

/-- C2: in every reachable state every post's likeCount equals the
cardinality of its likes set, and after any successful toggleLike the
stored count is the length of the likes array recomputed inside the
transaction (never a blind increment). -/
theorem claim2_like_count_invariant :
    (∀ s, Reachable s → ∀ id, likeCountOf s id = (likesOf s id).toFinset.card) ∧
    (∀ s s2 user postId, toggleLike s user postId = .ok s2 →
        likeCountOf s2 postId = (likesOf s2 postId).length) := by
  constructor
  · intro s hs id
    obtain ⟨-, -, hlike⟩ := reachable_stateInv hs
    obtain ⟨h1, h2⟩ := hlike id
    rw [h2]
    exact (List.toFinset_card_of_nodup h1).symm
  · intro s s2 user postId h
    obtain ⟨pd, hp, rfl⟩ := (toggleLike_ok_iff s user postId s2).mp h
    rw [likesOf_likeOkState s user postId pd hp postId,
        likeCountOf_likeOkState s user postId pd hp postId, if_pos rfl, if_pos rfl]

/-- Witness for C2 at the concrete reachable store in which alice has
liked bob's post. -/
theorem claim2_like_count_invariant_witness :
    likeCountOf wLikeState "p1" = (likesOf wLikeState "p1").toFinset.card ∧
    likeCountOf wLikeState "p1" = (likesOf wLikeState "p1").length :=
  ⟨claim2_like_count_invariant.1 wLikeState wReachLike "p1",
   claim2_like_count_invariant.2 wPostState wLikeState wUserA "p1" wLikeState_eq⟩

/-- C3: ToggleFollow is an involution: for distinct actor and target
with the target present, two successive toggles return both users'
following/followers sets (as membership) and both counts to their
original linkage state, and leave the untouched sides of both records
unchanged. -/
theorem claim3_toggleFollow_involution (s s1 s2 : ServerState) (user : AuthUser)
    (t : String) (hne : user.uid ≠ t)
    (hnF : (followingOf s user.uid).Nodup)
    (hnT : (followersOf s t).Nodup)
    (hlink : user.uid ∈ followersOf s t ↔ t ∈ followingOf s user.uid)
    (hcF : followingCountOf s user.uid = (followingOf s user.uid).length)
    (hcT : followersCountOf s t = (followersOf s t).length)
    (h1 : handleFollow s user t = .ok s1)
    (h2 : handleFollow s1 user t = .ok s2) :
    (∀ x, x ∈ followingOf s2 user.uid ↔ x ∈ followingOf s user.uid) ∧
    (∀ x, x ∈ followersOf s2 t ↔ x ∈ followersOf s t) ∧
    followingCountOf s2 user.uid = followingCountOf s user.uid ∧
    followersCountOf s2 t = followersCountOf s t ∧
    followersOf s2 user.uid = followersOf s user.uid ∧
    followingOf s2 t = followingOf s t ∧
    followersCountOf s2 user.uid = followersCountOf s user.uid ∧
    followingCountOf s2 t = followingCountOf s t := by
  obtain ⟨tu, ht, rfl⟩ := (handleFollow_ok_iff s user t s1).mp h1
  obtain ⟨tu1, ht1, rfl⟩ := (handleFollow_ok_iff _ user t _).mp h2
  have htne : t ≠ user.uid := fun h => hne h.symm
  have e1F : followingOf (followOkState s user t tu) user.uid =
      toggleMem (followingOf s user.uid) t := by
    rw [followingOf_followOkState s user t tu ht user.uid, if_pos rfl,
      newFollowingList_eq_toggleMem]
  have e1T : followersOf (followOkState s user t tu) t =
      toggleMem (followersOf s t) user.uid := by
    rw [followersOf_followOkState s user t tu ht t, if_pos rfl,
      newFollowersList_eq_toggleMem s user.uid t hlink]
  have hlink1 : user.uid ∈ followersOf (followOkState s user t tu) t ↔
      t ∈ followingOf (followOkState s user t tu) user.uid := by
    rw [e1F, e1T, self_mem_toggleMem, self_mem_toggleMem]
    exact not_congr hlink
  have e2F : followingOf (followOkState (followOkState s user t tu) user t tu1) user.uid =
      toggleMem (toggleMem (followingOf s user.uid) t) t := by
    rw [followingOf_followOkState _ user t tu1 ht1 user.uid, if_pos rfl,
      newFollowingList_eq_toggleMem, e1F]
  have e2T : followersOf (followOkState (followOkState s user t tu) user t tu1) t =
      toggleMem (toggleMem (followersOf s t) user.uid) user.uid := by
    rw [followersOf_followOkState _ user t tu1 ht1 t, if_pos rfl,
      newFollowersList_eq_toggleMem _ user.uid t hlink1, e1T]
  refine ⟨?_, ?_, ?_, ?_, ?_, ?_, ?_, ?_⟩
  · intro x
    rw [e2F]
    exact toggleMem_twice_mem _ t x
  · intro x
    rw [e2T]
    exact toggleMem_twice_mem _ user.uid x
  · rw [followingCountOf_followOkState _ user t tu1 ht1 user.uid, if_pos rfl,
      newFollowingList_eq_toggleMem, e1F, toggleMem_twice_length _ t hnF]
    exact hcF.symm
  · rw [followersCountOf_followOkState _ user t tu1 ht1 t, if_pos rfl,
      newFollowersList_eq_toggleMem _ user.uid t hlink1, e1T,
      toggleMem_twice_length _ user.uid hnT]
    exact hcT.symm
  · rw [followersOf_followOkState _ user t tu1 ht1 user.uid, if_neg hne,
      followersOf_followOkState s user t tu ht user.uid, if_neg hne]
  · rw [followingOf_followOkState _ user t tu1 ht1 t, if_neg htne,
      followingOf_followOkState s user t tu ht t, if_neg htne]
  · rw [followersCountOf_followOkState _ user t tu1 ht1 user.uid, if_neg hne,
      followersCountOf_followOkState s user t tu ht user.uid, if_neg hne]
  · rw [followingCountOf_followOkState _ user t tu1 ht1 t, if_neg htne,
      followingCountOf_followOkState s user t tu ht t, if_neg htne]

/-- Witness for C3: alice toggling bob twice from the two-user store
returns both records to their original linkage state. -/
theorem claim3_toggleFollow_involution_witness :
    (∀ x, x ∈ followingOf wState4 "alice" ↔ x ∈ followingOf wState2 "alice") ∧
    (∀ x, x ∈ followersOf wState4 "bob" ↔ x ∈ followersOf wState2 "bob") ∧
    followingCountOf wState4 "alice" = followingCountOf wState2 "alice" ∧
    followersCountOf wState4 "bob" = followersCountOf wState2 "bob" ∧
    followersOf wState4 "alice" = followersOf wState2 "alice" ∧
    followingOf wState4 "bob" = followingOf wState2 "bob" ∧
    followersCountOf wState4 "alice" = followersCountOf wState2 "alice" ∧
    followingCountOf wState4 "bob" = followingCountOf wState2 "bob" :=
  claim3_toggleFollow_involution wState2 wState3 wState4 wUserA "bob"
    (by decide) (by decide) (by decide) (by decide) (by decide) (by decide)
    wState3_eq wState4_eq

/-- C4: the location score is the stated piecewise function of the
resolved distance (1000 when unknown, 10d up to 10 km, 100+5(d-10) up to
50 km, 300+2(d-50) up to 200 km, 600+min(d-200,400) beyond, capped at
1000), and the rating score is ten times the average absolute rating
difference over the commonly rated sports, or the fixed penalty 100 when
none is rated in common. -/
theorem claim4_scoring_formulas :
    locationScore none = 1000 ∧
    (∀ d : ℚ, d ≤ 10 → locationScore (some d) = 10 * d) ∧
    (∀ d : ℚ, 10 < d → d ≤ 50 → locationScore (some d) = 100 + 5 * (d - 10)) ∧
    (∀ d : ℚ, 50 < d → d ≤ 200 → locationScore (some d) = 300 + 2 * (d - 50)) ∧
    (∀ d : ℚ, 200 < d → locationScore (some d) = 600 + min (d - 200) 400 ∧
        locationScore (some d) ≤ 1000) ∧
    ratingScore none = 100 ∧
    (∀ r : ℚ, ratingScore (some r) = 10 * r) ∧
    (∀ ur pr : SportRatings, commonDiffs ur pr = [] →
        calculateSportRatingDifference (some ur) (some pr) = none) ∧
    (∀ ur pr : SportRatings, commonDiffs ur pr ≠ [] →
        calculateSportRatingDifference (some ur) (some pr) =
          some ((commonDiffs ur pr).sum / ((commonDiffs ur pr).length : ℚ))) := by
  refine ⟨rfl, ?_, ?_, ?_, ?_, rfl, ?_, ?_, ?_⟩
  · intro d h
    simp only [locationScore]
    rw [if_pos h, mul_comm]
  · intro d h10 h50
    simp only [locationScore]
    rw [if_neg (not_le.mpr h10), if_pos h50]
    ring
  · intro d h50 h200
    have h10 : (10 : ℚ) < d := lt_trans (by norm_num) h50
    simp only [locationScore]
    rw [if_neg (not_le.mpr h10), if_neg (not_le.mpr h50), if_pos h200]
    ring
  · intro d h200
    have h10 : (10 : ℚ) < d := lt_trans (by norm_num) h200
    have h50 : (50 : ℚ) < d := lt_trans (by norm_num) h200
    simp only [locationScore]
    rw [if_neg (not_le.mpr h10), if_neg (not_le.mpr h50), if_neg (not_le.mpr h200),
      ratMin_eq_min]
    refine ⟨rfl, ?_⟩
    have hmin : min (d - 200) 400 ≤ (400 : ℚ) := min_le_right _ _
    linarith
  · intro r
    simp only [ratingScore]
    rw [mul_comm]
  · intro ur pr h
    rw [calculateSportRatingDifference_eq, if_pos h]
  · intro ur pr h
    rw [calculateSportRatingDifference_eq, if_neg h]

/-- Witness for C4 at concrete distances in each band and concrete
rating maps with and without a commonly rated sport. -/
theorem claim4_scoring_formulas_witness :
    locationScore (some 5) = 10 * 5 ∧
    locationScore (some 30) = 100 + 5 * (30 - 10) ∧
    locationScore (some 100) = 300 + 2 * (100 - 50) ∧
    (locationScore (some 700) = 600 + min (700 - 200) 400 ∧
      locationScore (some 700) ≤ 1000) ∧
    ratingScore (some 7) = 10 * 7 ∧
    calculateSportRatingDifference (some emptyRatings) (some emptyRatings) = none ∧
    calculateSportRatingDifference
        (some { tennis := some 4 }) (some { tennis := some 3 }) =
      some ((commonDiffs { tennis := some 4 } { tennis := some 3 }).sum /
        ((commonDiffs { tennis := some 4 } { tennis := some 3 }).length : ℚ)) :=
  ⟨claim4_scoring_formulas.2.1 5 (by norm_num),
   claim4_scoring_formulas.2.2.1 30 (by norm_num) (by norm_num),
   claim4_scoring_formulas.2.2.2.1 100 (by norm_num) (by norm_num),
   claim4_scoring_formulas.2.2.2.2.1 700 (by norm_num),
   claim4_scoring_formulas.2.2.2.2.2.2.1 7,
   claim4_scoring_formulas.2.2.2.2.2.2.2.1 emptyRatings emptyRatings (by decide),
   claim4_scoring_formulas.2.2.2.2.2.2.2.2 { tennis := some 4 } { tennis := some 3 }
     (by decide)⟩

/-- C5: each candidate's total score is 0.7 times its location score
plus 0.3 times its rating score; the feed is the full self-excluded
candidate list stably sorted ascending by total score (ties keep the
original recency order) and the recommended slice is its first twenty;
in particular the 5 km candidate ranks ahead of the 60 km candidate when
both carry identical ratings. -/
theorem claim5_feed_ordering :
    (∀ dist profile users post, scorePost dist profile users post =
        (7 / 10) * locationScore (resolvedDistance dist profile users post) +
        (3 / 10) * ratingScore (resolvedRatingDifference profile users post)) ∧
    (∀ dist uid profile users recentPosts,
        (generateRecommendations dist uid profile users recentPosts).Pairwise
          (fun a b => a.2 ≤ b.2)) ∧
    (∀ dist uid profile users recentPosts,
        (generateRecommendations dist uid profile users recentPosts).Perm
          ((recentPosts.filter (fun post => post.data.userId ≠ uid)).map
            (fun post => (post, scorePost dist profile users post)))) ∧
    (∀ dist uid profile users recentPosts (x y : SnapshotPost × ℚ), x.2 ≤ y.2 →
        List.Sublist [x, y]
          ((recentPosts.filter (fun post => post.data.userId ≠ uid)).map
            (fun post => (post, scorePost dist profile users post))) →
        List.Sublist [x, y]
          (generateRecommendations dist uid profile users recentPosts)) ∧
    (∀ dist uid profile users recentPosts,
        recommendedPosts dist uid profile users recentPosts =
          (generateRecommendations dist uid profile users recentPosts).take 20 ∧
        (recommendedPosts dist uid profile users recentPosts).length =
          min 20 (generateRecommendations dist uid profile users recentPosts).length) ∧
    (∀ rd : Option ℚ,
        (7 / 10) * locationScore (some 5) + (3 / 10) * ratingScore rd <
        (7 / 10) * locationScore (some 60) + (3 / 10) * ratingScore rd) ∧
    (generateRecommendations exDist "viewer" exProfile exUsers [exFar, exNear]).map
        (fun sp => sp.1.id) = ["near", "far"] := by
  refine ⟨?_, generateRecommendations_sorted, generateRecommendations_perm,
    ?_, ?_, ?_, ?_⟩
  · exact fun dist profile users post => scorePost_eq dist profile users post
  · exact fun dist uid profile users recentPosts x y hxy hsub =>
      generateRecommendations_stable dist uid profile users recentPosts x y hxy hsub
  · intro dist uid profile users recentPosts
    refine ⟨rfl, ?_⟩
    unfold recommendedPosts
    rw [List.length_take]
  · intro rd
    have h5 : locationScore (some 5) = 50 := by norm_num [locationScore]
    have h60 : locationScore (some 60) = 320 := by norm_num [locationScore]
    rw [h5, h60]
    linarith
  · have hmap : (([exFar, exNear].filter (fun post => post.data.userId ≠ "viewer")).map
        (fun post => (post, scorePost exDist exProfile exUsers post))) =
        [(exFar, scorePost exDist exProfile exUsers exFar),
         (exNear, scorePost exDist exProfile exUsers exNear)] := rfl
    have hperm := generateRecommendations_perm exDist "viewer" exProfile exUsers
      [exFar, exNear]
    rw [hmap] at hperm
    have hperm2 : (generateRecommendations exDist "viewer" exProfile exUsers
        [exFar, exNear]).Perm
        [(exNear, scorePost exDist exProfile exUsers exNear),
         (exFar, scorePost exDist exProfile exUsers exFar)] :=
      hperm.trans (List.Perm.swap _ _ _)
    have hsort := generateRecommendations_sorted exDist "viewer" exProfile exUsers
      [exFar, exNear]
    have hlt : (scorePost exDist exProfile exUsers exNear) <
        (scorePost exDist exProfile exUsers exFar) := by
      rw [exNear_score, exFar_score]
      norm_num
    have hout := eq_pair_of_perm_of_sorted (fun a => a.2) hperm2 hsort hlt
    rw [hout]
    rfl

/-- Witness for C5: a stability instance with two equal-scored
candidates kept in recency order, and the score formula at the near
candidate. -/
theorem claim5_feed_ordering_witness :
    List.Sublist
      [(exNear, scorePost exDist exProfile exUsers exNear),
       (exNear2, scorePost exDist exProfile exUsers exNear2)]
      (generateRecommendations exDist "viewer" exProfile exUsers [exNear, exNear2]) ∧
    scorePost exDist exProfile exUsers exNear =
      (7 / 10) * locationScore (resolvedDistance exDist exProfile exUsers exNear) +
      (3 / 10) * ratingScore (resolvedRatingDifference exProfile exUsers exNear) :=
  ⟨claim5_feed_ordering.2.2.2.1 exDist "viewer" exProfile exUsers [exNear, exNear2]
      (exNear, scorePost exDist exProfile exUsers exNear)
      (exNear2, scorePost exDist exProfile exUsers exNear2)
      (le_of_eq (exNear_score.trans exNear2_score.symm)) (List.Sublist.refl _),
   claim5_feed_ordering.1 exDist exProfile exUsers exNear⟩

/-- C6: with no location and no ratings key the ranking is skipped and
the feed is the self-excluded recency list; a failed users fetch falls
back to the same list; and on every path the feed contains no post
authored by the viewer. -/
theorem claim6_feed_fallback :
    (∀ dist uid profile usersFetch recentPosts,
        profile.location = none →
        ratingsKeyCount (profile.sportRatings.getD emptyRatings) = 0 →
        feedPosts dist uid profile usersFetch recentPosts =
          recentPosts.filter (fun post => post.data.userId ≠ uid)) ∧
    (∀ dist uid profile recentPosts,
        feedPosts dist uid profile none recentPosts =
          recentPosts.filter (fun post => post.data.userId ≠ uid)) ∧
    (∀ dist uid profile usersFetch recentPosts post,
        post ∈ feedPosts dist uid profile usersFetch recentPosts →
        post.data.userId ≠ uid) := by
  refine ⟨?_, ?_, ?_⟩
  · intro dist uid profile usersFetch recentPosts hloc hkeys
    unfold feedPosts
    rw [if_neg]
    rintro ⟨-, hsig | hsig⟩
    · rw [hloc] at hsig
      simp at hsig
    · rw [hkeys] at hsig
      exact lt_irrefl 0 hsig
  · intro dist uid profile recentPosts
    unfold feedPosts
    split
    · rfl
    · rfl
  · intro dist uid profile usersFetch recentPosts post hmem
    unfold feedPosts at hmem
    split at hmem
    · cases usersFetch with
      | none =>
          have := List.mem_filter.mp hmem
          simpa using this.2
      | some users =>
          obtain ⟨pair, hpair, rfl⟩ := List.mem_map.mp hmem
          unfold generateRecommendations at hpair
          rw [List.mem_mergeSort] at hpair
          obtain ⟨q, hq, rfl⟩ := List.mem_map.mp hpair
          have := List.mem_filter.mp hq
          simpa using this.2
    · have := List.mem_filter.mp hmem
      simpa using this.2

/-- Witness for C6: a profile with no signals, a failed fetch, and a
self-exclusion instance, all at concrete inputs. -/
theorem claim6_feed_fallback_witness :
    feedPosts exDist "viewer"
        { location := none, sportRatings := some emptyRatings }
        (some exUsers) [exFar, exNear] =
      [exFar, exNear].filter (fun post => post.data.userId ≠ "viewer") ∧
    feedPosts exDist "viewer" exProfile none [exFar, exNear] =
      [exFar, exNear].filter (fun post => post.data.userId ≠ "viewer") ∧
    exNear.data.userId ≠ "farAuthor" :=
  ⟨claim6_feed_fallback.1 exDist "viewer"
      { location := none, sportRatings := some emptyRatings }
      (some exUsers) [exFar, exNear] rfl (by decide),
   claim6_feed_fallback.2.1 exDist "viewer" exProfile [exFar, exNear],
   claim6_feed_fallback.2.2 exDist "farAuthor" exProfile none [exFar, exNear] exNear
     (by decide)⟩

/-- A store holding only bob, for exercising lazy actor creation. -/
def wStateB : ServerState :=
  setUser initState "bob" (signUpUserDoc "bob" "bob@mail" "Bob")

/-- C7: ToggleFollow fails with the target-not-found error when the
target record is absent and the aborted transaction leaves the store
unmodified; when the target exists and the actor record is absent, the
actor is lazily created with empty defaults plus the new following
membership and its recomputed count. -/
theorem claim7_follow_errors :
    (∀ s user userId, s.users userId = none →
        handleFollow s user userId = .error .userNotFound ∧
        runFollow s user userId = s) ∧
    (∀ s user userId tu, s.users userId = some tu → s.users user.uid = none →
        ∃ s2, handleFollow s user userId = .ok s2 ∧
          s2.users user.uid = some
            { uid := user.uid, email := user.email.getD "",
              displayName := user.displayName.getD "Unknown User", bio := "",
              profileImageUrl := "", followersCount := 0, followingCount := 1,
              postsCount := 0, followers := [], following := [userId],
              likedPosts := [], sportRatings := emptyRatings, location := none }) := by
  constructor
  · intro s user userId h
    have herr : handleFollow s user userId = .error .userNotFound := by
      unfold handleFollow
      rw [h]
    refine ⟨herr, ?_⟩
    unfold runFollow
    rw [herr]
  · intro s user userId tu ht hcu
    have hne : user.uid ≠ userId := by
      intro h
      rw [h, ht] at hcu
      exact Option.noConfusion hcu
    refine ⟨followOkState s user userId tu, ?_, ?_⟩
    · unfold handleFollow
      rw [ht]
    · simp [followOkState, hcu, hne]

/-- Witness for C7: following a missing user from the empty store fails
and changes nothing; alice following bob from the bob-only store creates
her record with the single following entry. -/
theorem claim7_follow_errors_witness :
    (handleFollow initState wUserA "bob" = .error .userNotFound ∧
     runFollow initState wUserA "bob" = initState) ∧
    ∃ s2, handleFollow wStateB wUserA "bob" = .ok s2 ∧
      s2.users "alice" = some
        { uid := "alice", email := "alice@mail", displayName := "Alice", bio := "",
          profileImageUrl := "", followersCount := 0, followingCount := 1,
          postsCount := 0, followers := [], following := ["bob"],
          likedPosts := [], sportRatings := emptyRatings, location := none } :=
  ⟨claim7_follow_errors.1 initState wUserA "bob" rfl,
   claim7_follow_errors.2 wStateB wUserA "bob" (signUpUserDoc "bob" "bob@mail" "Bob")
     rfl rfl⟩

/-- C8: ToggleLike fails with the post-not-found error when the post is
absent and the aborted transaction leaves the store unmodified; when the
post exists and the actor record is absent, the actor is lazily created
with empty defaults and zero counts except that likedPosts already holds
the newly liked post. -/
theorem claim8_like_errors :
    (∀ s user postId, s.posts postId = none →
        toggleLike s user postId = .error .postNotFound ∧
        runLike s user postId = s) ∧
    (∀ s user postId pd, s.posts postId = some pd → s.users user.uid = none →
        user.uid ∉ pd.likes →
        ∃ s2, toggleLike s user postId = .ok s2 ∧
          s2.users user.uid = some
            { uid := user.uid, email := user.email.getD "",
              displayName := user.displayName.getD "Unknown User", bio := "",
              profileImageUrl := "", followersCount := 0, followingCount := 0,
              postsCount := 0, followers := [], following := [],
              likedPosts := [postId], sportRatings := emptyRatings,
              location := none } ∧
          s2.posts postId = some
            { pd with likes := pd.likes ++ [user.uid],
                      likeCount := (pd.likes ++ [user.uid]).length }) := by
  constructor
  · intro s user postId h
    have herr : toggleLike s user postId = .error .postNotFound := by
      unfold toggleLike
      rw [h]
    refine ⟨herr, ?_⟩
    unfold runLike
    rw [herr]
  · intro s user postId pd hp hus hnl
    refine ⟨likeOkState s user postId pd, ?_, ?_, ?_⟩
    · unfold toggleLike
      rw [hp]
    · simp [likeOkState, hus, hnl]
    · simp [likeOkState, hus, hnl]

/-- Witness for C8: liking a missing post from the empty store fails and
changes nothing; alice liking bob's fresh post creates her record with
the post already in likedPosts and appends her to the post's likes. -/
theorem claim8_like_errors_witness :
    (toggleLike initState wUserA "p1" = .error .postNotFound ∧
     runLike initState wUserA "p1" = initState) ∧
    ∃ s2, toggleLike wPostState wUserA "p1" = .ok s2 ∧
      s2.users "alice" = some
        { uid := "alice", email := "alice@mail", displayName := "Alice", bio := "",
          profileImageUrl := "", followersCount := 0, followingCount := 0,
          postsCount := 0, followers := [], following := [],
          likedPosts := ["p1"], sportRatings := emptyRatings, location := none } ∧
      s2.posts "p1" = some
        { createPostDoc "bob" "first post" "Bob" with
            likes := ["alice"], likeCount := 1 } :=
  ⟨claim8_like_errors.1 initState wUserA "p1" rfl,
   claim8_like_errors.2 wPostState wUserA "p1" (createPostDoc "bob" "first post" "Bob")
     rfl rfl (by decide)⟩

/-- C9 counterexample: adding a comment under a post id that has no post
record does create the comment document (the addDoc write precedes the
count transaction, which silently skips the update), refuting the
claimed PostNotFound failure with no comment created. -/
theorem claim9_counterexample :
    (addComment initState { uid := "u1", email := none, displayName := none }
        "p1" "hello").posts "p1" = none ∧
    (addComment initState { uid := "u1", email := none, displayName := none }
        "p1" "hello").comments "p1" =
      [{ text := "hello", userId := "u1", userDisplayName := "Anonymous",
         userProfileImageUrl := "" }] := by
  constructor
  · rfl
  · rfl

/-- C9 (amended): an empty trimmed comment is rejected with no state
change; when the post exists, exactly one comment document is created and
commentCount is incremented by exactly one from the value re-read in the
transaction; when the post record is absent the operation does not fail:
the comment document is still created and no count is updated. -/
theorem claim9_addComment_amended :
    (∀ s user postId text, strTrim text = "" →
        addComment s user postId text = s) ∧
    (∀ s user postId text, strTrim text ≠ "" → s.posts postId = none →
        (addComment s user postId text).posts = s.posts ∧
        (addComment s user postId text).comments postId =
          s.comments postId ++
            [{ text := strTrim text, userId := user.uid,
               userDisplayName := user.displayName.getD "Anonymous",
               userProfileImageUrl := "" }]) ∧
    (∀ s user postId text p, strTrim text ≠ "" → s.posts postId = some p →
        (addComment s user postId text).posts postId =
          some { p with commentCount := p.commentCount + 1 } ∧
        (∀ x, x ≠ postId → (addComment s user postId text).posts x = s.posts x) ∧
        (addComment s user postId text).comments postId =
          s.comments postId ++
            [{ text := strTrim text, userId := user.uid,
               userDisplayName := user.displayName.getD "Anonymous",
               userProfileImageUrl := "" }]) := by
  refine ⟨?_, ?_, ?_⟩
  · intro s user postId text h
    unfold addComment
    rw [if_pos h]
  · intro s user postId text htext hp
    unfold addComment
    rw [if_neg htext]
    simp only [posts_pushComment, hp]
    exact ⟨trivial, by simp [pushComment]⟩
  · intro s user postId text p htext hp
    unfold addComment
    rw [if_neg htext]
    simp only [posts_pushComment, hp]
    refine ⟨?_, ?_, ?_⟩
    · simp [setPost]
    · intro x hx
      simp [setPost, pushComment, hx]
    · simp [setPost, pushComment]

/-- Witness for C9 (amended): the empty comment, the missing post, and
the successful comment on bob's fresh post, at concrete inputs. -/
theorem claim9_addComment_amended_witness :
    addComment initState wUserA "p1" "   " = initState ∧
    ((addComment initState wUserA "p1" "hi").posts = initState.posts ∧
     (addComment initState wUserA "p1" "hi").comments "p1" =
       initState.comments "p1" ++
         [{ text := "hi", userId := "alice", userDisplayName := "Alice",
            userProfileImageUrl := "" }]) ∧
    ((addComment wPostState wUserA "p1" "hi").posts "p1" =
       some { createPostDoc "bob" "first post" "Bob" with commentCount := 1 } ∧
     (∀ x, x ≠ "p1" → (addComment wPostState wUserA "p1" "hi").posts x =
        wPostState.posts x) ∧
     (addComment wPostState wUserA "p1" "hi").comments "p1" =
       wPostState.comments "p1" ++
         [{ text := "hi", userId := "alice", userDisplayName := "Alice",
            userProfileImageUrl := "" }]) :=
  ⟨claim9_addComment_amended.1 initState wUserA "p1" "   " rfl,
   claim9_addComment_amended.2.1 initState wUserA "p1" "hi" (by decide) rfl,
   claim9_addComment_amended.2.2 wPostState wUserA "p1" "hi"
     (createPostDoc "bob" "first post" "Bob") (by decide) rfl⟩

/-- C10: a sport contributes to the affinity average only when both
sides rate it truthily, so rating maps whose only shared sports are
rated zero yield an unknown affinity and the fixed rating penalty of 100
instead of a computed difference of zero. -/
theorem claim10_zero_rated_common :
    (∀ ur pr : SportRatings,
        calculateSportRatingDifference (some ur) (some pr) = none ↔
          ∀ sport ∈ sportsFields,
            ¬(truthyRating (sport ur) ∧ truthyRating (sport pr))) ∧
    (∀ ur pr : SportRatings,
        (∀ sport ∈ sportsFields, (sport ur).isSome → (sport pr).isSome →
            sport ur = some 0 ∨ sport pr = some 0) →
        calculateSportRatingDifference (some ur) (some pr) = none ∧
        ratingScore (calculateSportRatingDifference (some ur) (some pr)) = 100) := by
  have hnone : ∀ ur pr : SportRatings,
      calculateSportRatingDifference (some ur) (some pr) = none ↔
        ∀ sport ∈ sportsFields,
          ¬(truthyRating (sport ur) ∧ truthyRating (sport pr)) := by
    intro ur pr
    rw [calculateSportRatingDifference_eq]
    constructor
    · intro h
      rw [← commonDiffs_eq_nil_iff]
      by_cases hnil : commonDiffs ur pr = []
      · exact hnil
      · rw [if_neg hnil] at h
        exact Option.noConfusion h
    · intro h
      rw [if_pos ((commonDiffs_eq_nil_iff ur pr).mpr h)]
  constructor
  · exact hnone
  · intro ur pr h
    have hc : ∀ sport ∈ sportsFields,
        ¬(truthyRating (sport ur) ∧ truthyRating (sport pr)) := by
      intro sport hs hcond
      obtain ⟨hu, hp⟩ := hcond
      have hus : (sport ur).isSome := by
        unfold truthyRating at hu
        cases hur : sport ur with
        | none => rw [hur] at hu; exact absurd hu not_false
        | some a => rfl
      have hps : (sport pr).isSome := by
        unfold truthyRating at hp
        cases hpr : sport pr with
        | none => rw [hpr] at hp; exact absurd hp not_false
        | some a => rfl
      rcases h sport hs hus hps with h0 | h0
      · rw [h0] at hu
        exact hu rfl
      · rw [h0] at hp
        exact hp rfl
    have hn := (hnone ur pr).mpr hc
    rw [hn]
    exact ⟨rfl, rfl⟩

/-- Witness for C10: two maps sharing only a zero-rated tennis entry get
the penalty, not a zero difference. -/
theorem claim10_zero_rated_common_witness :
    calculateSportRatingDifference
        (some { tennis := some 0 }) (some { tennis := some 0 }) = none ∧
    ratingScore (calculateSportRatingDifference
        (some { tennis := some 0 }) (some { tennis := some 0 })) = 100 :=
  claim10_zero_rated_common.2 { tennis := some 0 } { tennis := some 0 } (by decide)

end SportConnect
